import Mathlib

/-!
Verification of the boxscore scorekeeping application (src/src/App.tsx).

The development shallowly embeds the in-memory game-state reducer, the
persistence codec (load/normalize/save), and the share-signature logic.
JavaScript numbers that the application ever stores in stat lines and
deltas are integers, so numbers are modelled as `Int` (a JSON number that
is not finite, such as `Infinity` produced by parsing `1e999`, gets its
own constructor since `Number.isFinite` rejects it).  The JSON string
layer (`JSON.parse` / `JSON.stringify`) is modelled by a `JsValue` tree;
`localStorage` reads are modelled as `Option JsValue` where `none` stands
for an absent key or a raw string that fails to parse.
-/

namespace Boxscore

/-- The ten stat counters (`StatKey` in App.tsx). -/
inductive StatKey where
  | lowPA
  | lowPM
  | highPA
  | highPM
  | ast
  | stl
  | blk
  | reb
  | tov
  | tovf
deriving DecidableEq, Repr, Fintype

/-- A stat line: a fixed record of counters (`StatLine` in App.tsx).
Fields are integers; the application keeps them non-negative. -/
structure StatLine where
  lowPA : Int
  lowPM : Int
  highPA : Int
  highPM : Int
  ast : Int
  stl : Int
  blk : Int
  reb : Int
  tov : Int
  tovf : Int
deriving DecidableEq, Repr

/-- A sparse signed delta (`StatDelta` in App.tsx): `none` models an
absent key. -/
structure StatDelta where
  lowPA : Option Int := none
  lowPM : Option Int := none
  highPA : Option Int := none
  highPM : Option Int := none
  ast : Option Int := none
  stl : Option Int := none
  blk : Option Int := none
  reb : Option Int := none
  tov : Option Int := none
  tovf : Option Int := none
deriving DecidableEq, Repr

/-- Field access of a stat line by key (`stats[key]` in App.tsx). -/
def StatLine.get (s : StatLine) : StatKey → Int
  | .lowPA => s.lowPA
  | .lowPM => s.lowPM
  | .highPA => s.highPA
  | .highPM => s.highPM
  | .ast => s.ast
  | .stl => s.stl
  | .blk => s.blk
  | .reb => s.reb
  | .tov => s.tov
  | .tovf => s.tovf

/-- Field access of a delta by key (`delta[key]` in App.tsx; `none` is
`undefined`). -/
def StatDelta.get (d : StatDelta) : StatKey → Option Int
  | .lowPA => d.lowPA
  | .lowPM => d.lowPM
  | .highPA => d.highPA
  | .highPM => d.highPM
  | .ast => d.ast
  | .stl => d.stl
  | .blk => d.blk
  | .reb => d.reb
  | .tov => d.tov
  | .tovf => d.tovf

theorem StatLine.ext_get {s t : StatLine} (h : ∀ k, s.get k = t.get k) : s = t := by
  cases s; cases t
  have h1 := h .lowPA; have h2 := h .lowPM; have h3 := h .highPA
  have h4 := h .highPM; have h5 := h .ast; have h6 := h .stl
  have h7 := h .blk; have h8 := h .reb; have h9 := h .tov; have h10 := h .tovf
  simp_all [StatLine.get]

/-- `blankStatLine` from App.tsx: every counter starts at zero. -/
def blankStatLine : StatLine :=
  { lowPA := 0, lowPM := 0, highPA := 0, highPM := 0, ast := 0,
    stl := 0, blk := 0, reb := 0, tov := 0, tovf := 0 }

/-- `clampToZero` from App.tsx: `Math.max(0, value)`. -/
def clampToZero (value : Int) : Int := max 0 value

/-- `applyDelta` from App.tsx: for every stat key the loop sets
`nextStats[key] = Math.max(0, nextStats[key] + (delta[key] ?? 0) * direction)`;
the record below is that loop unrolled over `STAT_KEYS`. -/
def applyDelta (currentStats : StatLine) (delta : StatDelta) (direction : Int) :
    StatLine :=
  { lowPA := max 0 (currentStats.lowPA + (delta.lowPA.getD 0) * direction)
    lowPM := max 0 (currentStats.lowPM + (delta.lowPM.getD 0) * direction)
    highPA := max 0 (currentStats.highPA + (delta.highPA.getD 0) * direction)
    highPM := max 0 (currentStats.highPM + (delta.highPM.getD 0) * direction)
    ast := max 0 (currentStats.ast + (delta.ast.getD 0) * direction)
    stl := max 0 (currentStats.stl + (delta.stl.getD 0) * direction)
    blk := max 0 (currentStats.blk + (delta.blk.getD 0) * direction)
    reb := max 0 (currentStats.reb + (delta.reb.getD 0) * direction)
    tov := max 0 (currentStats.tov + (delta.tov.getD 0) * direction)
    tovf := max 0 (currentStats.tovf + (delta.tovf.getD 0) * direction) }

theorem applyDelta_get (s : StatLine) (d : StatDelta) (dir : Int) (k : StatKey) :
    (applyDelta s d dir).get k = max 0 (s.get k + (d.get k).getD 0 * dir) := by
  cases k <;> rfl

/-- Applying a list of deltas in order with direction `+1`
(`logAction` applies each delta as `applyDelta(player.stats, action.delta, 1)`). -/
def applyAll (s : StatLine) (ds : List StatDelta) : StatLine :=
  ds.foldl (fun t d => applyDelta t d 1) s

/-- Undoing a list of deltas: applying their exact inverses in reverse
order (`undoLastAction` pops entries and applies each as
`applyDelta(player.stats, lastEntry.delta, -1)`). -/
def undoAll (s : StatLine) (ds : List StatDelta) : StatLine :=
  ds.reverse.foldl (fun t d => applyDelta t d (-1)) s

/-- One application of `delta` with direction `dir` to `s` performs no
clamping: no counter would be driven below zero. -/
def noClamp (s : StatLine) (d : StatDelta) (dir : Int) : Prop :=
  ∀ k, 0 ≤ s.get k + (d.get k).getD 0 * dir

instance (s : StatLine) (d : StatDelta) (dir : Int) : Decidable (noClamp s d dir) := by
  unfold noClamp; infer_instance

/-- Every intermediate application in the apply phase and in the undo
phase performs no clamping. -/
def noClampSeq : StatLine → List StatDelta → Prop
  | _, [] => True
  | s, d :: ds =>
      noClamp s d 1 ∧
        (noClamp (applyDelta s d 1) d (-1) ∧ noClampSeq (applyDelta s d 1) ds)

def decNoClampSeq : (s : StatLine) → (ds : List StatDelta) → Decidable (noClampSeq s ds)
  | _, [] => isTrue trivial
  | s, d :: ds =>
      @instDecidableAnd _ _ inferInstance
        (@instDecidableAnd _ _ inferInstance (decNoClampSeq (applyDelta s d 1) ds))

attribute [instance] decNoClampSeq

theorem applyDelta_inverse (s : StatLine) (d : StatDelta)
    (h1 : noClamp s d 1) (h2 : noClamp (applyDelta s d 1) d (-1)) :
    applyDelta (applyDelta s d 1) d (-1) = s := by
  apply StatLine.ext_get
  intro k
  have hf := h1 k
  have hb := h2 k
  rw [applyDelta_get] at hb ⊢
  rw [applyDelta_get]
  omega

theorem applyAll_cons (s : StatLine) (d : StatDelta) (ds : List StatDelta) :
    applyAll s (d :: ds) = applyAll (applyDelta s d 1) ds := rfl

theorem undoAll_cons (s : StatLine) (d : StatDelta) (ds : List StatDelta) :
    undoAll s (d :: ds) = applyDelta (undoAll s ds) d (-1) := by
  unfold undoAll
  rw [List.reverse_cons, List.foldl_append]
  rfl

/-- C1: applying deltas `d1..dn` with direction `+1` and then their exact
inverses in reverse order with direction `-1` restores the original stat
line, provided no intermediate application clamped any counter at 0. -/
theorem apply_then_undo_roundtrip (s : StatLine) (ds : List StatDelta)
    (h : noClampSeq s ds) : undoAll (applyAll s ds) ds = s := by
  induction ds generalizing s with
  | nil => rfl
  | cons d ds ih =>
      obtain ⟨h1, h2, h3⟩ := h
      rw [applyAll_cons, undoAll_cons, ih _ h3]
      exact applyDelta_inverse s d h1 h2

/-- Witness for C1 at a concrete stat line and two-delta sequence. -/
theorem apply_then_undo_roundtrip_witness :
    noClampSeq blankStatLine
        [{ lowPA := some 1, lowPM := some 1 }, { ast := some 1, tov := some (-0) }] ∧
      undoAll
          (applyAll blankStatLine
            [{ lowPA := some 1, lowPM := some 1 }, { ast := some 1, tov := some (-0) }])
          [{ lowPA := some 1, lowPM := some 1 }, { ast := some 1, tov := some (-0) }] =
        blankStatLine :=
  ⟨by decide,
    apply_then_undo_roundtrip blankStatLine
      [{ lowPA := some 1, lowPM := some 1 }, { ast := some 1, tov := some (-0) }]
      (by decide)⟩

/-- C2 helper: the clamping condition at one key. -/
def wouldClampAt (s : StatLine) (d : StatDelta) (dir : Int) (k : StatKey) : Prop :=
  s.get k + (d.get k).getD 0 * dir < 0

instance (s : StatLine) (d : StatDelta) (dir : Int) (k : StatKey) :
    Decidable (wouldClampAt s d dir k) := by
  unfold wouldClampAt; infer_instance


/-- A JavaScript value as produced by `JSON.parse`.  `num` holds the
finite numbers the application ever encounters (integers); `nonfinite`
models a number for which `Number.isFinite` is false (e.g. `Infinity`
parsed from `1e999`). -/
inductive JsValue where
  | null
  | bool (b : Bool)
  | num (n : Int)
  | nonfinite
  | str (s : String)
  | arr (xs : List JsValue)
  | obj (fields : List (String × JsValue))

/-- `isRecord` from App.tsx: `typeof value === 'object' && value !== null`.
Note that JavaScript arrays also satisfy this test. -/
def isRecord : JsValue → Bool
  | .obj _ => true
  | .arr _ => true
  | _ => false

/-- First binding of a key in an object's field list (JavaScript property
lookup; `JSON.parse` yields objects with distinct keys). -/
def findField (k : String) : List (String × JsValue) → Option JsValue
  | [] => none
  | (k', v) :: rest => if k' = k then some v else findField k rest

/-- Property access `value[k]` (`none` models `undefined`).  The
application only reads non-numeric property names, so lookups on arrays
yield `undefined`; lookups on non-objects are only ever performed after
an `isRecord` guard replaced the value with `{}`. -/
def getField : Option JsValue → String → Option JsValue
  | some (.obj fields), k => findField k fields
  | _, _ => none

/-- `Array.isArray` refinement: the element list when the value is an
array. -/
def asArray : Option JsValue → Option (List JsValue)
  | some (.arr xs) => some xs
  | _ => none

/-- `safeString` from App.tsx: a string passes through, anything else
(including `undefined`) becomes the fallback. -/
def safeString (value : Option JsValue) (fallback : String) : String :=
  match value with
  | some (.str s) => s
  | _ => fallback

/-- `safeNumber` from App.tsx: a finite number passes through, anything
else (including `undefined` and non-finite numbers) becomes the
fallback. -/
def safeNumber (value : Option JsValue) (fallback : Int) : Int :=
  match value with
  | some (.num n) => n
  | _ => fallback

/-- `Phase` from App.tsx. -/
inductive Phase where
  | setup
  | game
  | editNames
deriving DecidableEq, Repr

/-- `ScoringMode` from App.tsx. -/
inductive ScoringMode where
  | twosAndThrees
  | onesAndTwos
deriving DecidableEq, Repr

/-- `TeamId` from App.tsx. -/
inductive TeamId where
  | A
  | B
deriving DecidableEq, Repr

def phaseStr : Phase → String
  | .setup => "setup"
  | .game => "game"
  | .editNames => "editNames"

def scoringModeStr : ScoringMode → String
  | .twosAndThrees => "twosAndThrees"
  | .onesAndTwos => "onesAndTwos"

def teamIdStr : TeamId → String
  | .A => "A"
  | .B => "B"

/-- `isPhase` from App.tsx, refined to return the parsed phase. -/
def asPhase : Option JsValue → Option Phase
  | some (.str "setup") => some .setup
  | some (.str "game") => some .game
  | some (.str "editNames") => some .editNames
  | _ => none

/-- `isScoringMode` from App.tsx, refined to return the parsed mode. -/
def asScoringMode : Option JsValue → Option ScoringMode
  | some (.str "twosAndThrees") => some .twosAndThrees
  | some (.str "onesAndTwos") => some .onesAndTwos
  | _ => none

/-- `isTeamId` from App.tsx, refined to return the parsed team id. -/
def asTeamId : Option JsValue → Option TeamId
  | some (.str "A") => some TeamId.A
  | some (.str "B") => some TeamId.B
  | _ => none

/-- `isTeamSize` from App.tsx, refined to return the parsed size. -/
def asTeamSize : Option JsValue → Option Nat
  | some (.num 4) => some 4
  | some (.num 5) => some 5
  | _ => none

/-- `Player` from App.tsx. -/
structure Player where
  id : String
  name : String
  stats : StatLine
deriving DecidableEq, Repr

/-- `Team` from App.tsx. -/
structure Team where
  id : TeamId
  label : String
  players : List Player
deriving DecidableEq, Repr

/-- `SetupTeam` from App.tsx. -/
structure SetupTeam where
  label : String
  names : List String
deriving DecidableEq, Repr

/-- `LoggedAction` from App.tsx. -/
structure LoggedAction where
  teamId : TeamId
  playerId : String
  delta : StatDelta
  label : String
deriving DecidableEq, Repr

/-- The `Record<TeamId, SetupTeam>` staging data. -/
structure SetupMap where
  A : SetupTeam
  B : SetupTeam
deriving DecidableEq, Repr

def SetupMap.get (m : SetupMap) : TeamId → SetupTeam
  | .A => m.A
  | .B => m.B

/-- `PersistedState` from App.tsx.  `playerCount` is a number (the code
restricts it to 4 or 5 via `isTeamSize` when loading). -/
structure PersistedState where
  phase : Phase
  playerCount : Nat
  setupScoringMode : ScoringMode
  gameScoringMode : ScoringMode
  setup : SetupMap
  teams : List Team
  selectedTeamId : TeamId
  selectedPlayerId : String
  history : List LoggedAction
  lastAction : String
deriving DecidableEq, Repr

def MAX_PLAYERS_PER_TEAM : Nat := 5

/-- `createSetupTeam` from App.tsx. -/
def createSetupTeam (label : String) : SetupTeam :=
  { label := label, names := ["", "", "", "", ""] }

/-- `defaultSetup` from App.tsx. -/
def defaultSetup : SetupMap :=
  { A := createSetupTeam "Team A", B := createSetupTeam "Team B" }

/-- `normalizeStatLine` from App.tsx: each counter becomes
`clampToZero(safeNumber(source[key]))`. -/
def normalizeStatLine (value : Option JsValue) : StatLine :=
  { lowPA := clampToZero (safeNumber (getField value "lowPA") 0)
    lowPM := clampToZero (safeNumber (getField value "lowPM") 0)
    highPA := clampToZero (safeNumber (getField value "highPA") 0)
    highPM := clampToZero (safeNumber (getField value "highPM") 0)
    ast := clampToZero (safeNumber (getField value "ast") 0)
    stl := clampToZero (safeNumber (getField value "stl") 0)
    blk := clampToZero (safeNumber (getField value "blk") 0)
    reb := clampToZero (safeNumber (getField value "reb") 0)
    tov := clampToZero (safeNumber (getField value "tov") 0)
    tovf := clampToZero (safeNumber (getField value "tovf") 0) }

/-- One key of `normalizeStatDelta` from App.tsx: the key survives only
when the value is a finite number. -/
def asFiniteNum : Option JsValue → Option Int
  | some (.num n) => some n
  | _ => none

/-- `normalizeStatDelta` from App.tsx, with the loop over `STAT_KEYS`
unrolled.  A non-record value has no readable keys, giving the empty
delta. -/
def normalizeStatDelta (value : Option JsValue) : StatDelta :=
  { lowPA := asFiniteNum (getField value "lowPA")
    lowPM := asFiniteNum (getField value "lowPM")
    highPA := asFiniteNum (getField value "highPA")
    highPM := asFiniteNum (getField value "highPM")
    ast := asFiniteNum (getField value "ast")
    stl := asFiniteNum (getField value "stl")
    blk := asFiniteNum (getField value "blk")
    reb := asFiniteNum (getField value "reb")
    tov := asFiniteNum (getField value "tov")
    tovf := asFiniteNum (getField value "tovf") }

/-- Array index access `rawNames[index]` (`none` is `undefined`). -/
def jsIndex (xs : List JsValue) (i : Nat) : Option JsValue :=
  xs[i]?

/-- `normalizeSetupTeam` from App.tsx. -/
def normalizeSetupTeam (value : Option JsValue) (fallbackLabel : String) :
    SetupTeam :=
  let rawNames := (asArray (getField value "names")).getD []
  { label := safeString (getField value "label") fallbackLabel
    names :=
      (List.range MAX_PLAYERS_PER_TEAM).map fun i =>
        safeString (jsIndex rawNames i) "" }

/-- `normalizePlayer` from App.tsx. -/
def normalizePlayer (value : Option JsValue) (teamId : TeamId) (index : Nat) :
    Player :=
  { id := safeString (getField value "id") (teamIdStr teamId ++ "-" ++ toString (index + 1))
    name := safeString (getField value "name") ("P" ++ toString (index + 1))
    stats := normalizeStatLine (getField value "stats") }

/-- `rawPlayers.map((player, index) => normalizePlayer(player, id, index))`. -/
def normalizePlayers (teamId : TeamId) : Nat → List JsValue → List Player
  | _, [] => []
  | i, v :: vs => normalizePlayer (some v) teamId i :: normalizePlayers teamId (i + 1) vs

/-- `normalizeTeam` from App.tsx. -/
def normalizeTeam (value : Option JsValue) (fallbackTeamId : TeamId) : Team :=
  let id := (asTeamId (getField value "id")).getD fallbackTeamId
  { id := id
    label := safeString (getField value "label") ("Team " ++ teamIdStr id)
    players := normalizePlayers id 0 ((asArray (getField value "players")).getD []) }

/-- The entry loop of `normalizeHistory` from App.tsx: entries that are
not records or whose `teamId` is not a valid team id are skipped. -/
def normalizeHistoryItems : List JsValue → List LoggedAction
  | [] => []
  | item :: rest =>
      match asTeamId (getField (some item) "teamId") with
      | some tid =>
          { teamId := tid
            playerId := safeString (getField (some item) "playerId") ""
            delta := normalizeStatDelta (getField (some item) "delta")
            label := safeString (getField (some item) "label") "" } ::
            normalizeHistoryItems rest
      | none => normalizeHistoryItems rest

/-- `normalizeHistory` from App.tsx. -/
def normalizeHistory (value : Option JsValue) : List LoggedAction :=
  match asArray value with
  | some items => normalizeHistoryItems items
  | none => []

/-- `resolveSelectedPlayerId` from App.tsx. -/
def resolveSelectedPlayerId (teams : List Team) (selectedTeamId : TeamId)
    (selectedPlayerId : String) : String :=
  match teams.find? (fun team => team.id = selectedTeamId) with
  | none => ""
  | some selectedTeam =>
      if selectedTeam.players.isEmpty then ""
      else
        match selectedTeam.players.find? (fun player => player.id = selectedPlayerId) with
        | some matchingPlayer => matchingPlayer.id
        | none => (selectedTeam.players.headD { id := "", name := "", stats := blankStatLine }).id

/-- One step of the team-collection loop in `loadPersistedState`
(App.tsx lines 429-435): the fallback id is `B` exactly when slot `A` is
already taken, and a normalized team is stored only when its id's slot is
still free (de-duplication keeps the first occurrence). -/
def insertTeam (acc : Option Team × Option Team) (raw : JsValue) :
    Option Team × Option Team :=
  let fallbackTeamId : TeamId := if acc.1.isSome then .B else .A
  let normalized := normalizeTeam (some raw) fallbackTeamId
  match normalized.id with
  | .A => if acc.1.isSome then acc else (some normalized, acc.2)
  | .B => if acc.2.isSome then acc else (acc.1, some normalized)

def collectTeams (raws : List JsValue) : Option Team × Option Team :=
  raws.foldl insertTeam (none, none)

/-- `TEAM_IDS.flatMap(...)`: the collected teams listed in `A`, `B`
order. -/
def teamsOfPair (p : Option Team × Option Team) : List Team :=
  p.1.toList ++ p.2.toList

/-- The normalized team list produced by `loadPersistedState` from the
raw `teams` array. -/
def decodeTeams (raws : List JsValue) : List Team :=
  teamsOfPair (collectTeams raws)

/-- `loadPersistedState` from App.tsx.  The argument is the parsed
content of the storage key: `none` models an absent key or a
`JSON.parse`/storage failure (the `catch` path), in which case the
function returns `null` and the application falls back to defaults. -/
def loadPersistedState (raw : Option JsValue) : Option PersistedState :=
  match raw with
  | none => none
  | some parsed =>
      if isRecord parsed then
        let setupV := getField (some parsed) "setup"
        let setup : SetupMap :=
          { A := normalizeSetupTeam (getField setupV "A") "Team A"
            B := normalizeSetupTeam (getField setupV "B") "Team B" }
        let rawTeams := (asArray (getField (some parsed) "teams")).getD []
        let teams := decodeTeams rawTeams
        let playerCount := (asTeamSize (getField (some parsed) "playerCount")).getD 5
        let setupScoringMode :=
          (asScoringMode (getField (some parsed) "setupScoringMode")).getD .twosAndThrees
        let gameScoringMode :=
          (asScoringMode (getField (some parsed) "gameScoringMode")).getD setupScoringMode
        let selectedTeamId : TeamId :=
          match asTeamId (getField (some parsed) "selectedTeamId") with
          | some tid =>
              if teams.any (fun team => team.id = tid) then tid
              else ((teams.head?).map Team.id).getD .A
          | none => ((teams.head?).map Team.id).getD .A
        let selectedPlayerId :=
          resolveSelectedPlayerId teams selectedTeamId
            (safeString (getField (some parsed) "selectedPlayerId") "")
        let initialPhase := (asPhase (getField (some parsed) "phase")).getD .setup
        let phase : Phase :=
          if teams = [] ∧ initialPhase ≠ Phase.setup then .setup else initialPhase
        some
          { phase := phase
            playerCount := playerCount
            setupScoringMode := setupScoringMode
            gameScoringMode := gameScoringMode
            setup := setup
            teams := teams
            selectedTeamId := selectedTeamId
            selectedPlayerId := selectedPlayerId
            history := normalizeHistory (getField (some parsed) "history")
            lastAction := safeString (getField (some parsed) "lastAction") "" }
      else none

/-- The state the application starts from when `loadPersistedState`
returns `null`: each `useState` initializer falls back to its default. -/
def defaultPersistedState : PersistedState :=
  { phase := .setup
    playerCount := 5
    setupScoringMode := .twosAndThrees
    gameScoringMode := .twosAndThrees
    setup := defaultSetup
    teams := []
    selectedTeamId := .A
    selectedPlayerId := ""
    history := []
    lastAction := "" }

/-- The persisted state actually in effect at startup: the loaded state,
or the defaults when loading yielded nothing. -/
def loadOrDefault (raw : Option JsValue) : PersistedState :=
  (loadPersistedState raw).getD defaultPersistedState

/-- The JSON image of a stat line as serialized by `persistState`
(field order is the `StatLine` literal order used throughout App.tsx). -/
def encodeStatLine (s : StatLine) : JsValue :=
  .obj
    [("lowPA", .num s.lowPA), ("lowPM", .num s.lowPM), ("highPA", .num s.highPA),
      ("highPM", .num s.highPM), ("ast", .num s.ast), ("stl", .num s.stl),
      ("blk", .num s.blk), ("reb", .num s.reb), ("tov", .num s.tov),
      ("tovf", .num s.tovf)]

/-- A sparse delta key contributes a field only when present. -/
def optNumField (k : String) : Option Int → List (String × JsValue)
  | some n => [(k, .num n)]
  | none => []

/-- The JSON image of a sparse delta. -/
def encodeStatDelta (d : StatDelta) : JsValue :=
  .obj
    (optNumField "lowPA" d.lowPA ++ optNumField "lowPM" d.lowPM ++
      optNumField "highPA" d.highPA ++ optNumField "highPM" d.highPM ++
      optNumField "ast" d.ast ++ optNumField "stl" d.stl ++
      optNumField "blk" d.blk ++ optNumField "reb" d.reb ++
      optNumField "tov" d.tov ++ optNumField "tovf" d.tovf)

def encodeSetupTeam (st : SetupTeam) : JsValue :=
  .obj [("label", .str st.label), ("names", .arr (st.names.map .str))]

def encodePlayer (p : Player) : JsValue :=
  .obj [("id", .str p.id), ("name", .str p.name), ("stats", encodeStatLine p.stats)]

def encodeTeam (t : Team) : JsValue :=
  .obj
    [("id", .str (teamIdStr t.id)), ("label", .str t.label),
      ("players", .arr (t.players.map encodePlayer))]

def encodeLoggedAction (a : LoggedAction) : JsValue :=
  .obj
    [("teamId", .str (teamIdStr a.teamId)), ("playerId", .str a.playerId),
      ("delta", encodeStatDelta a.delta), ("label", .str a.label)]

/-- The JSON image of the object `persistState` serializes (App.tsx
lines 719-731); key order follows that object literal. -/
def encodePersistedState (S : PersistedState) : JsValue :=
  .obj
    [("phase", .str (phaseStr S.phase)),
      ("playerCount", .num S.playerCount),
      ("setupScoringMode", .str (scoringModeStr S.setupScoringMode)),
      ("gameScoringMode", .str (scoringModeStr S.gameScoringMode)),
      ("setup", .obj [("A", encodeSetupTeam S.setup.A), ("B", encodeSetupTeam S.setup.B)]),
      ("teams", .arr (S.teams.map encodeTeam)),
      ("selectedTeamId", .str (teamIdStr S.selectedTeamId)),
      ("selectedPlayerId", .str S.selectedPlayerId),
      ("history", .arr (S.history.map encodeLoggedAction)),
      ("lastAction", .str S.lastAction)]

theorem normalizeStatLine_get_nonneg (v : Option JsValue) (k : StatKey) :
    0 ≤ (normalizeStatLine v).get k := by
  cases k <;> simp [normalizeStatLine, StatLine.get, clampToZero]

/-- C2: every counter of an `applyDelta` result is non-negative in either
direction; a delta that would drive a counter below 0 yields exactly 0
for that counter; and `normalizeStatLine` clamps every loaded counter to
be non-negative. -/
theorem applyDelta_clamps_nonneg (s : StatLine) (d : StatDelta) (dir : Int)
    (_hs : ∀ k, 0 ≤ s.get k) :
    (∀ k, 0 ≤ (applyDelta s d dir).get k) ∧
      (∀ k, wouldClampAt s d dir k → (applyDelta s d dir).get k = 0) ∧
      (∀ v k, 0 ≤ (normalizeStatLine v).get k) := by
  refine ⟨fun k => ?_, fun k hk => ?_, normalizeStatLine_get_nonneg⟩
  · rw [applyDelta_get]; exact le_max_left _ _
  · unfold wouldClampAt at hk
    rw [applyDelta_get]
    omega

/-- Witness for C2 at a concrete stat line, delta and both directions. -/
theorem applyDelta_clamps_nonneg_witness :
    (∀ k, 0 ≤ blankStatLine.get k) ∧
      (applyDelta blankStatLine { tov := some 3 } (-1)).get .tov = 0 ∧
      0 ≤ (applyDelta blankStatLine { ast := some 2 } 1).get .ast :=
  ⟨by decide,
    (applyDelta_clamps_nonneg blankStatLine { tov := some 3 } (-1) (by decide)).2.1
      .tov (by decide),
    (applyDelta_clamps_nonneg blankStatLine { ast := some 2 } 1 (by decide)).1 .ast⟩

theorem findField_optNumField_ne (k k' : String) (o : Option Int)
    (rest : List (String × JsValue)) (h : k' ≠ k) :
    findField k (optNumField k' o ++ rest) = findField k rest := by
  cases o <;> simp [optNumField, findField, h]

theorem findField_optNumField_self (k : String) (o : Option Int)
    (rest : List (String × JsValue)) :
    findField k (optNumField k o ++ rest) =
      (o.map JsValue.num).or (findField k rest) := by
  cases o <;> simp [optNumField, findField]

theorem findField_optNumField_ne_nil (k k' : String) (o : Option Int) (h : k' ≠ k) :
    findField k (optNumField k' o) = none := by
  cases o <;> simp [optNumField, findField, h]

theorem findField_optNumField_self_nil (k : String) (o : Option Int) :
    findField k (optNumField k o) = o.map JsValue.num := by
  cases o <;> simp [optNumField, findField]

theorem asFiniteNum_or_none (o : Option Int) :
    asFiniteNum ((o.map JsValue.num).or none) = o := by
  cases o <;> rfl

theorem asFiniteNum_map_num (o : Option Int) :
    asFiniteNum (o.map JsValue.num) = o := by
  cases o <;> rfl

/-- A stat line all of whose counters are non-negative (the invariant the
application maintains). -/
def statNonneg (s : StatLine) : Prop := ∀ k, 0 ≤ s.get k

instance (s : StatLine) : Decidable (statNonneg s) := by
  unfold statNonneg; infer_instance

theorem normalizeStatLine_encode (s : StatLine) (h : statNonneg s) :
    normalizeStatLine (some (encodeStatLine s)) = s := by
  apply StatLine.ext_get
  intro k
  have hk := h k
  cases k <;>
    simp +decide [normalizeStatLine, encodeStatLine, getField, findField,
      StatLine.get, clampToZero, safeNumber] <;>
    revert hk <;> cases s <;> simp [StatLine.get]

theorem normalizeStatDelta_encode (d : StatDelta) :
    normalizeStatDelta (some (encodeStatDelta d)) = d := by
  obtain ⟨d1, d2, d3, d4, d5, d6, d7, d8, d9, d10⟩ := d
  simp only [normalizeStatDelta, encodeStatDelta, getField, List.append_assoc]
  simp +decide only [findField_optNumField_ne, findField_optNumField_self,
    findField_optNumField_ne_nil, findField_optNumField_self_nil, List.append_nil]
  simp [asFiniteNum_or_none, asFiniteNum_map_num, Option.or_none]

theorem exists_five {α : Type _} (l : List α) (h : l.length = 5) :
    ∃ a b c d e, l = [a, b, c, d, e] := by
  match l with
  | [a, b, c, d, e] => exact ⟨a, b, c, d, e, rfl⟩
  | [] | [_] | [_, _] | [_, _, _] | [_, _, _, _] => simp at h
  | _ :: _ :: _ :: _ :: _ :: _ :: _ => simp at h

theorem normalizeSetupTeam_encode (st : SetupTeam) (fb : String)
    (h : st.names.length = 5) :
    normalizeSetupTeam (some (encodeSetupTeam st)) fb = st := by
  obtain ⟨label, names⟩ := st
  simp only at h
  obtain ⟨a, b, c, d, e, rfl⟩ := exists_five names h
  rfl

theorem normalizePlayer_encode (p : Player) (tid : TeamId) (i : Nat)
    (h : statNonneg p.stats) :
    normalizePlayer (some (encodePlayer p)) tid i = p := by
  obtain ⟨pid, pname, pstats⟩ := p
  simp +decide [normalizePlayer, encodePlayer, getField, findField, safeString]
  exact normalizeStatLine_encode _ h

theorem normalizePlayers_encode (ps : List Player) (tid : TeamId) (i : Nat)
    (h : ∀ p ∈ ps, statNonneg p.stats) :
    normalizePlayers tid i (ps.map encodePlayer) = ps := by
  induction ps generalizing i with
  | nil => rfl
  | cons p ps ih =>
      simp only [List.map_cons, normalizePlayers]
      rw [normalizePlayer_encode p tid i (h p (by simp)),
        ih (i + 1) (fun q hq => h q (by simp [hq]))]

theorem normalizeTeam_encode (t : Team) (fb : TeamId)
    (h : ∀ p ∈ t.players, statNonneg p.stats) :
    normalizeTeam (some (encodeTeam t)) fb = t := by
  obtain ⟨tid, tlabel, tplayers⟩ := t
  have hid : asTeamId (getField (some (encodeTeam ⟨tid, tlabel, tplayers⟩)) "id") =
      some tid := by
    cases tid <;> rfl
  simp +decide [normalizeTeam, encodeTeam, getField, findField, safeString,
    asArray, asTeamId] at hid ⊢
  constructor
  · cases tid <;> simp_all [asTeamId]
  · cases tid <;> simp_all [asTeamId] <;> exact normalizePlayers_encode _ _ _ h

theorem normalizeHistoryItems_encode (hist : List LoggedAction) :
    normalizeHistoryItems (hist.map encodeLoggedAction) = hist := by
  induction hist with
  | nil => rfl
  | cons a rest ih =>
      obtain ⟨tid, pid, delta, label⟩ := a
      cases tid <;>
        simp +decide [List.map_cons, normalizeHistoryItems, encodeLoggedAction,
          getField, findField, asTeamId, teamIdStr, safeString,
          normalizeStatDelta_encode, ih]

theorem insertTeam_encode (acc : Option Team × Option Team) (t : Team)
    (h : ∀ p ∈ t.players, statNonneg p.stats) :
    insertTeam acc (encodeTeam t) =
      match t.id with
      | .A => if acc.1.isSome then acc else (some t, acc.2)
      | .B => if acc.2.isSome then acc else (acc.1, some t) := by
  simp only [insertTeam]
  rw [normalizeTeam_encode t _ h]

theorem decodeTeams_encode (teams : List Team)
    (hids : teams.map Team.id = [] ∨ teams.map Team.id = [TeamId.A] ∨
      teams.map Team.id = [TeamId.B] ∨ teams.map Team.id = [TeamId.A, TeamId.B])
    (h : ∀ t ∈ teams, ∀ p ∈ t.players, statNonneg p.stats) :
    decodeTeams (teams.map encodeTeam) = teams := by
  match teams with
  | [] => rfl
  | [t] =>
      have ht := insertTeam_encode (none, none) t (h t (by simp))
      simp only [List.map_cons, List.map_nil] at hids
      rcases hids with h1 | h1 | h1 | h1 <;> simp at h1 <;>
        simp [decodeTeams, collectTeams, insertTeam_encode, teamsOfPair, ht, h1]
  | [t1, t2] =>
      simp only [List.map_cons, List.map_nil] at hids
      rcases hids with h1 | h1 | h1 | h1 <;> simp at h1
      obtain ⟨ha, hb⟩ := h1
      have ht1 := insertTeam_encode (none, none) t1 (h t1 (by simp))
      have ht2 := insertTeam_encode (some t1, none) t2 (h t2 (by simp))
      rw [ha] at ht1
      rw [hb] at ht2
      simp only at ht1 ht2
      simp [decodeTeams, collectTeams, teamsOfPair, ht1, ht2]
  | t1 :: t2 :: t3 :: rest =>
      exfalso
      rcases hids with h1 | h1 | h1 | h1 <;> simp at h1

theorem asPhase_encode (p : Phase) : asPhase (some (.str (phaseStr p))) = some p := by
  cases p <;> rfl

theorem asScoringMode_encode (m : ScoringMode) :
    asScoringMode (some (.str (scoringModeStr m))) = some m := by
  cases m <;> rfl

theorem asTeamId_encode (t : TeamId) : asTeamId (some (.str (teamIdStr t))) = some t := by
  cases t <;> rfl

/-- Well-formedness of an application state: exactly the invariants the
reducer maintains on every state it persists.  The setup staging lists
hold five slots; the player count is 4 or 5; team ids appear in `A`, `B`
order without duplicates; with no teams the phase is Setup; the selection
is consistent with the roster; and all counters are non-negative. -/
def WellFormed (S : PersistedState) : Prop :=
  S.setup.A.names.length = 5 ∧
    S.setup.B.names.length = 5 ∧
    (S.playerCount = 4 ∨ S.playerCount = 5) ∧
    (S.teams.map Team.id = [] ∨ S.teams.map Team.id = [TeamId.A] ∨
      S.teams.map Team.id = [TeamId.B] ∨ S.teams.map Team.id = [TeamId.A, TeamId.B]) ∧
    (S.teams = [] → S.phase = Phase.setup) ∧
    (if S.teams.any (fun team => team.id = S.selectedTeamId) then S.selectedTeamId
      else ((S.teams.head?).map Team.id).getD .A) = S.selectedTeamId ∧
    resolveSelectedPlayerId S.teams S.selectedTeamId S.selectedPlayerId =
      S.selectedPlayerId ∧
    ∀ t ∈ S.teams, ∀ p ∈ t.players, statNonneg p.stats

instance (S : PersistedState) : Decidable (WellFormed S) := by
  unfold WellFormed; infer_instance

theorem loadPersistedState_encode (S : PersistedState) (h : WellFormed S) :
    loadPersistedState (some (encodePersistedState S)) = some S := by
  obtain ⟨h5A, h5B, hpc, hids, hphase, hseltid, hselpid, hnn⟩ := h
  obtain ⟨phase, playerCount, ssm, gsm, setup, teams, selTid, selPid, history, lastAct⟩ := S
  simp only at h5A h5B hpc hids hphase hseltid hselpid hnn
  have hteams : decodeTeams (teams.map encodeTeam) = teams :=
    decodeTeams_encode _ hids hnn
  simp +decide only [loadPersistedState, encodePersistedState, isRecord, getField,
    findField, asArray, normalizeHistory, if_true, if_false]
  simp only [Option.getD_some, hteams, asPhase_encode, asScoringMode_encode,
    asTeamId_encode, normalizeSetupTeam_encode setup.A "Team A" h5A,
    normalizeSetupTeam_encode setup.B "Team B" h5B, normalizeHistoryItems_encode,
    safeString, Option.some.injEq, PersistedState.mk.injEq]
  repeat' apply And.intro
  all_goals
    first
      | trivial
      | (rcases hpc with rfl | rfl <;> rfl)
      | exact hseltid
      | exact hselpid
      | (rw [hseltid]; exact hselpid)
      | (split_ifs with hc
         · exact (hc.2 (hphase hc.1)).elim
         · rfl)

/-- C3: persistence round-trips — loading the serialization of any
well-formed state returns that state; an absent or unparseable raw value
loads as `none` and the application then starts from the fully defaulted
state, as does a parseable but non-record value, and a record missing
every field loads as the fully defaulted state.  All load paths are total
functions (nothing throws). -/
theorem load_save_roundtrip :
    (∀ S, WellFormed S → loadPersistedState (some (encodePersistedState S)) = some S) ∧
      loadPersistedState none = none ∧
      (∀ v, isRecord v = false → loadPersistedState (some v) = none) ∧
      loadOrDefault none = defaultPersistedState ∧
      loadOrDefault (some (JsValue.obj [])) = defaultPersistedState := by
  refine ⟨loadPersistedState_encode, rfl, ?_, rfl, rfl⟩
  intro v hv
  simp [loadPersistedState, hv]

/-- A concrete mid-game state used to witness the persistence theorems. -/
def exampleState : PersistedState :=
  { phase := .game
    playerCount := 5
    setupScoringMode := .twosAndThrees
    gameScoringMode := .onesAndTwos
    setup := defaultSetup
    teams :=
      [{ id := .A, label := "Sharks", players := [{ id := "A-1", name := "Ann", stats := blankStatLine }] },
        { id := .B, label := "Jets",
          players :=
            [{ id := "B-1", name := "Bo",
                stats := { blankStatLine with lowPA := 2, lowPM := 1 } }] }]
    selectedTeamId := .B
    selectedPlayerId := "B-1"
    history :=
      [{ teamId := .B, playerId := "B-1",
          delta := { lowPA := some 1, lowPM := some 1 }, label := "Jets | Bo | 2PM" }]
    lastAction := "Jets | Bo | 2PM" }

/-- Witness for C3 at a concrete well-formed state and a concrete
corrupted value. -/
theorem load_save_roundtrip_witness :
    WellFormed exampleState ∧
      loadPersistedState (some (encodePersistedState exampleState)) =
        some exampleState ∧
      isRecord (JsValue.str "junk") = false ∧
      loadPersistedState (some (JsValue.str "junk")) = none :=
  ⟨by decide, load_save_roundtrip.1 exampleState (by decide), rfl,
    load_save_roundtrip.2.2.1 (JsValue.str "junk") rfl⟩

/-- C5: whenever loading yields a state with zero teams, the loaded phase
is Setup, regardless of the recorded phase. -/
theorem load_no_teams_forces_setup (v : JsValue) (S : PersistedState)
    (h : loadPersistedState (some v) = some S) (hteams : S.teams = []) :
    S.phase = Phase.setup := by
  by_cases hr : isRecord v
  · simp only [loadPersistedState, hr, if_true] at h
    injection h with h
    subst h
    simp only at hteams ⊢
    split_ifs with hc
    · rfl
    · push_neg at hc
      exact hc hteams
  · simp only [loadPersistedState, Bool.not_eq_true] at hr h
    rw [hr] at h
    simp at h

/-- Witness for C5: a record whose `teams` is empty but whose `phase`
says "game" loads with phase Setup. -/
theorem load_no_teams_forces_setup_witness :
    loadPersistedState
        (some (JsValue.obj [("teams", JsValue.arr []), ("phase", JsValue.str "game")])) =
      some defaultPersistedState ∧
      defaultPersistedState.teams = [] ∧
      defaultPersistedState.phase = Phase.setup :=
  ⟨rfl, rfl,
    load_no_teams_forces_setup
      (JsValue.obj [("teams", JsValue.arr []), ("phase", JsValue.str "game")])
      defaultPersistedState rfl rfl⟩

/-- C4 counterexample: a malformed team entry (here the string "junk") is
not dropped — normalization coerces it into a default-shaped team that
occupies the `A` slot. -/
theorem malformed_team_entry_not_dropped :
    decodeTeams [JsValue.str "junk"] =
      [{ id := TeamId.A, label := "Team A", players := [] }] := by
  decide

/-- The team list contains a team with the given id. -/
def hasTeamId (teams : List Team) (tid : TeamId) : Bool :=
  teams.any fun team => team.id = tid

/-- Invariant of the collection pair: the first slot only ever holds a
team with id `A`, the second only a team with id `B`. -/
def pairInv (p : Option Team × Option Team) : Prop :=
  (∀ t, p.1 = some t → t.id = .A) ∧ (∀ t, p.2 = some t → t.id = .B)

theorem pairInv_insertTeam (p : Option Team × Option Team) (raw : JsValue)
    (h : pairInv p) : pairInv (insertTeam p raw) := by
  obtain ⟨hA, hB⟩ := h
  unfold insertTeam
  cases hid : (normalizeTeam (some raw) (if p.1.isSome then TeamId.B else TeamId.A)).id
  · simp only [hid]
    by_cases h1 : p.1.isSome
    · rw [if_pos h1]; exact ⟨hA, hB⟩
    · rw [if_neg h1]
      refine ⟨fun t ht => ?_, hB⟩
      injection ht with ht
      rw [← ht]
      exact hid
  · simp only [hid]
    by_cases h2 : p.2.isSome
    · rw [if_pos h2]; exact ⟨hA, hB⟩
    · rw [if_neg h2]
      refine ⟨hA, fun t ht => ?_⟩
      injection ht with ht
      rw [← ht]
      exact hid

theorem pairInv_foldl (raws : List JsValue) (p : Option Team × Option Team)
    (h : pairInv p) : pairInv (raws.foldl insertTeam p) := by
  induction raws generalizing p with
  | nil => exact h
  | cons raw raws ih => exact ih _ (pairInv_insertTeam p raw h)

theorem pairInv_collectTeams (raws : List JsValue) : pairInv (collectTeams raws) :=
  pairInv_foldl raws (none, none) ⟨by simp, by simp⟩

theorem hasTeamId_pair_A (p : Option Team × Option Team) (h : pairInv p) :
    hasTeamId (teamsOfPair p) .A = p.1.isSome := by
  obtain ⟨o1, o2⟩ := p
  obtain ⟨hA, hB⟩ := h
  cases o1 <;> cases o2 <;>
    simp_all [hasTeamId, teamsOfPair, List.any_cons]

theorem hasTeamId_pair_B (p : Option Team × Option Team) (h : pairInv p) :
    hasTeamId (teamsOfPair p) .B = p.2.isSome := by
  obtain ⟨o1, o2⟩ := p
  obtain ⟨hA, hB⟩ := h
  cases o1 <;> cases o2 <;>
    simp_all [hasTeamId, teamsOfPair, List.any_cons]

theorem collectTeams_append_one (raws : List JsValue) (raw : JsValue) :
    collectTeams (raws ++ [raw]) = insertTeam (collectTeams raws) raw := by
  unfold collectTeams
  rw [List.foldl_append]
  rfl

/-- C4 (amended): one more raw entry — malformed or not — is always
normalized into a team `t` whose fallback id is assigned in slot order
(`A` unless the `A` slot is already taken, else `B`); `t` is then dropped
exactly when a team with its id was already collected (de-duplication
keeps the first occurrence), and otherwise inserted in `A`-before-`B`
order. -/
theorem decodeTeams_append_one (raws : List JsValue) (raw : JsValue) :
    decodeTeams (raws ++ [raw]) =
      (let prev := decodeTeams raws
        let t := normalizeTeam (some raw) (if hasTeamId prev .A then .B else .A)
        if hasTeamId prev t.id then prev
        else if t.id = .A then t :: prev else prev ++ [t]) := by
  have hinv := pairInv_collectTeams raws
  have hA := hasTeamId_pair_A _ hinv
  have hB := hasTeamId_pair_B _ hinv
  obtain ⟨hsA, hsB⟩ := hinv
  unfold decodeTeams
  rw [collectTeams_append_one]
  rcases hp : collectTeams raws with ⟨o1, o2⟩
  rw [hp] at hA hB hsA hsB
  simp only [decodeTeams, hp] at hA hB ⊢
  unfold insertTeam
  rw [show (if (o1, o2).1.isSome then TeamId.B else TeamId.A) =
      (if hasTeamId (teamsOfPair (o1, o2)) .A then TeamId.B else TeamId.A) by
    rw [hA]]
  cases hid : (normalizeTeam (some raw)
      (if hasTeamId (teamsOfPair (o1, o2)) .A then TeamId.B else TeamId.A)).id
  · cases o1 <;> cases o2 <;>
      simp_all [teamsOfPair, hasTeamId, List.any_cons]
  · cases o1 <;> cases o2 <;>
      simp_all [teamsOfPair, hasTeamId, List.any_cons]

/-- `ActionTone` from App.tsx. -/
inductive ActionTone where
  | make
  | miss
  | event
deriving DecidableEq, Repr

/-- `ActionDefinition` from App.tsx. -/
structure ActionDefinition where
  id : String
  label : String
  short : String
  tone : ActionTone
  delta : StatDelta
deriving DecidableEq, Repr

/-- The in-memory reducer state: the `useState` hooks of the `App`
component that the game logic reads and writes.  Transient drag/animation
state of the share sheet is presentation-only and is not modelled. -/
structure AppState where
  phase : Phase
  playerCount : Nat
  setupScoringMode : ScoringMode
  gameScoringMode : ScoringMode
  setup : SetupMap
  teams : List Team
  selectedTeamId : TeamId
  selectedPlayerId : String
  history : List LoggedAction
  lastAction : String
  shareStatus : String
  shareSelectionByPlayerId : List (String × Bool)
  isShareOptionsOpen : Bool
  isPreparingShareImage : Bool
  hasSharePrepareError : Bool
  sharePrepareJobId : Nat
deriving DecidableEq, Repr

/-- `selectedTeam` in App.tsx: `teams.find((team) => team.id === selectedTeamId)`. -/
def selectedTeam (st : AppState) : Option Team :=
  st.teams.find? fun team => team.id = st.selectedTeamId

/-- `selectedPlayer` in App.tsx:
`selectedTeam?.players.find((player) => player.id === selectedPlayerId)`. -/
def selectedPlayer (st : AppState) : Option Player :=
  match selectedTeam st with
  | some team => team.players.find? fun player => player.id = st.selectedPlayerId
  | none => none

/-- `closeShareOptions` from App.tsx: bumps the preparation job token and
resets the share-sheet flags. -/
def closeShareOptions (st : AppState) : AppState :=
  { st with
    sharePrepareJobId := st.sharePrepareJobId + 1
    isPreparingShareImage := false
    hasSharePrepareError := false
    isShareOptionsOpen := false }

/-- `logAction` from App.tsx: a no-op unless both a team and a player are
selected; otherwise applies the action's delta (direction `+1`) to the
selected player only, appends the entry to history and updates the
last-action label. -/
def logAction (st : AppState) (action : ActionDefinition) : AppState :=
  match selectedTeam st, selectedPlayer st with
  | some team, some player =>
      let entry : LoggedAction :=
        { teamId := team.id
          playerId := player.id
          delta := action.delta
          label := team.label ++ " | " ++ player.name ++ " | " ++ action.short }
      { st with
        teams :=
          st.teams.map fun t =>
            if t.id ≠ team.id then t
            else
              { t with
                players :=
                  t.players.map fun p =>
                    if p.id ≠ player.id then p
                    else { p with stats := applyDelta p.stats action.delta 1 } }
        history := st.history ++ [entry]
        lastAction := entry.label }
  | _, _ => st

/-- `undoLastAction` from App.tsx: a no-op when history is empty;
otherwise applies the last entry's delta with direction `-1` to the same
player, pops the entry, and sets the last-action label. -/
def undoLastAction (st : AppState) : AppState :=
  match st.history.getLast? with
  | none => st
  | some lastEntry =>
      { st with
        teams :=
          st.teams.map fun t =>
            if t.id ≠ lastEntry.teamId then t
            else
              { t with
                players :=
                  t.players.map fun p =>
                    if p.id ≠ lastEntry.playerId then p
                    else { p with stats := applyDelta p.stats lastEntry.delta (-1) } }
        history := st.history.dropLast
        lastAction := "Undo: " ++ lastEntry.label }

/-- The padding loop of `beginEditNames`: current names padded to five
slots with blanks. -/
def padNames (names : List String) : List String :=
  names ++ List.replicate (5 - names.length) ""

/-- `beginEditNames` from App.tsx: a no-op when no teams exist; otherwise
derives the player-count toggle from the roster, stages current
labels/names into the setup structure, clears the share status, closes
the share options and moves to the EditNames phase. -/
def beginEditNames (st : AppState) : AppState :=
  if st.teams = [] then st
  else
    let nextPlayerCount : Nat :=
      match st.teams.head? with
      | some team => if team.players.length = 4 then 4 else 5
      | none => 5
    let stageTeam (tid : TeamId) (current : SetupTeam) : SetupTeam :=
      match st.teams.find? (fun team => team.id = tid) with
      | some currentTeam =>
          { label := currentTeam.label
            names := padNames (currentTeam.players.map Player.name) }
      | none => current
    let st1 := closeShareOptions st
    { st1 with
      playerCount := nextPlayerCount
      setup := { A := stageTeam .A st.setup.A, B := stageTeam .B st.setup.B }
      shareStatus := ""
      phase := .editNames }

/-- The name applied to the player at `index` by `saveEditedNames`:
`teamSetup.names[index]?.trim() || "P" + (index+1)`. -/
def renamedName (teamSetup : SetupTeam) (index : Nat) : String :=
  let nm := (teamSetup.names.getD index "").trim
  if nm = "" then "P" ++ toString (index + 1) else nm

/-- The indexed `team.players.map((player, index) => ...)` of
`saveEditedNames`: every player keeps its id and stats, only the name is
replaced. -/
def renamePlayers (teamSetup : SetupTeam) : Nat → List Player → List Player
  | _, [] => []
  | i, p :: ps =>
      { p with name := renamedName teamSetup i } :: renamePlayers teamSetup (i + 1) ps

/-- `saveEditedNames` from App.tsx. -/
def saveEditedNames (st : AppState) : AppState :=
  { st with
    teams :=
      st.teams.map fun team =>
        let teamSetup := st.setup.get team.id
        let nextTeamLabel :=
          if teamSetup.label.trim = "" then team.label else teamSetup.label.trim
        { team with
          label := nextTeamLabel
          players := renamePlayers teamSetup 0 team.players }
    lastAction := "Names updated."
    shareStatus := ""
    phase := .game }

/-- `backToSetup` from App.tsx ("Reset"). -/
def backToSetup (st : AppState) : AppState :=
  let st1 := closeShareOptions st
  { st1 with
    phase := .setup
    lastAction := ""
    history := []
    shareStatus := "" }

/-- `showSetup` in App.tsx: `phase === 'setup' || teams.length === 0` —
the condition under which the Setup view renders. -/
def showSetup (st : AppState) : Bool :=
  st.phase = Phase.setup || st.teams.isEmpty

/-- Property lookup in a `Record<string, boolean>` (first binding; the
record is built with distinct keys). -/
def lookupFlag : List (String × Bool) → String → Option Bool
  | [], _ => none
  | (k, v) :: rest, key => if k = key then some v else lookupFlag rest key

/-- Property assignment `record[key] = value` on a `Record<string,
boolean>`: updates the existing binding in place, else appends. -/
def setFlag : List (String × Bool) → String → Bool → List (String × Bool)
  | [], key, value => [(key, value)]
  | (k, v) :: rest, key, value =>
      if k = key then (k, value) :: rest else (k, v) :: setFlag rest key value

/-- The inner player loop of `buildDefaultShareSelection`:
`selection[player.id] = true` for every player. -/
def markPlayersIncluded : List (String × Bool) → List Player → List (String × Bool)
  | sel, [] => sel
  | sel, p :: ps => markPlayersIncluded (setFlag sel p.id true) ps

def buildDefaultShareSelectionAux : List (String × Bool) → List Team → List (String × Bool)
  | sel, [] => sel
  | sel, t :: ts => buildDefaultShareSelectionAux (markPlayersIncluded sel t.players) ts

/-- `buildDefaultShareSelection` from App.tsx: every player of every team
is mapped to `true`. -/
def buildDefaultShareSelection (teams : List Team) : List (String × Bool) :=
  buildDefaultShareSelectionAux [] teams

/-- The state of the `App` component right after mount: each `useState`
initializer reads the loaded persisted state (or its per-field default),
and the share selection is rebuilt from the loaded teams — it is not part
of `PersistedState` (App.tsx lines 79-90), so it always starts as
`buildDefaultShareSelection(persistedState?.teams ?? [])`. -/
def initialAppState (raw : Option JsValue) : AppState :=
  let p := loadOrDefault raw
  { phase := p.phase
    playerCount := p.playerCount
    setupScoringMode := p.setupScoringMode
    gameScoringMode := p.gameScoringMode
    setup := p.setup
    teams := p.teams
    selectedTeamId := p.selectedTeamId
    selectedPlayerId := p.selectedPlayerId
    history := p.history
    lastAction := p.lastAction
    shareStatus := ""
    shareSelectionByPlayerId := buildDefaultShareSelection p.teams
    isShareOptionsOpen := false
    isPreparingShareImage := false
    hasSharePrepareError := false
    sharePrepareJobId := 0 }

theorem lookupFlag_setFlag_self (sel : List (String × Bool)) (key : String) (value : Bool) :
    lookupFlag (setFlag sel key value) key = some value := by
  induction sel with
  | nil => simp [setFlag, lookupFlag]
  | cons kv rest ih =>
      obtain ⟨k, v⟩ := kv
      by_cases hk : k = key
      · simp [setFlag, lookupFlag, hk]
      · simp [setFlag, lookupFlag, hk, ih]

theorem lookupFlag_setFlag_true_preserve (sel : List (String × Bool)) (key other : String)
    (h : lookupFlag sel key = some true) :
    lookupFlag (setFlag sel other true) key = some true := by
  induction sel with
  | nil => simp [lookupFlag] at h
  | cons kv rest ih =>
      obtain ⟨k, v⟩ := kv
      by_cases hko : k = other
      · subst hko
        by_cases hk : k = key
        · simp_all [setFlag, lookupFlag]
        · simp_all [setFlag, lookupFlag]
      · by_cases hk : k = key
        · simp_all [setFlag, lookupFlag]
        · simp_all [setFlag, lookupFlag]

theorem lookupFlag_markPlayers_preserve (ps : List Player) (sel : List (String × Bool))
    (key : String) (h : lookupFlag sel key = some true) :
    lookupFlag (markPlayersIncluded sel ps) key = some true := by
  induction ps generalizing sel with
  | nil => exact h
  | cons p ps ih =>
      exact ih _ (lookupFlag_setFlag_true_preserve sel key p.id h)

theorem lookupFlag_markPlayers_self (ps : List Player) (sel : List (String × Bool))
    (p : Player) (hp : p ∈ ps) :
    lookupFlag (markPlayersIncluded sel ps) p.id = some true := by
  induction ps generalizing sel with
  | nil => cases hp
  | cons q ps ih =>
      rcases List.mem_cons.mp hp with rfl | hmem
      · exact lookupFlag_markPlayers_preserve ps _ _ (lookupFlag_setFlag_self sel p.id true)
      · exact ih _ hmem

theorem lookupFlag_buildAux_preserve (ts : List Team) (sel : List (String × Bool))
    (key : String) (h : lookupFlag sel key = some true) :
    lookupFlag (buildDefaultShareSelectionAux sel ts) key = some true := by
  induction ts generalizing sel with
  | nil => exact h
  | cons t ts ih =>
      exact ih _ (lookupFlag_markPlayers_preserve t.players sel key h)

theorem lookupFlag_buildAux_self (ts : List Team) (sel : List (String × Bool))
    (t : Team) (p : Player) (ht : t ∈ ts) (hp : p ∈ t.players) :
    lookupFlag (buildDefaultShareSelectionAux sel ts) p.id = some true := by
  induction ts generalizing sel with
  | nil => cases ht
  | cons u ts ih =>
      rcases List.mem_cons.mp ht with rfl | hmem
      · exact lookupFlag_buildAux_preserve ts _ _
          (lookupFlag_markPlayers_self t.players sel p hp)
      · exact ih _ hmem

/-- C10: the share selection is not persisted — at startup, whatever the
raw stored value was, the initial selection maps every player of every
loaded team to included (`true`). -/
theorem share_selection_not_persisted (raw : Option JsValue) (t : Team) (p : Player)
    (ht : t ∈ (initialAppState raw).teams) (hp : p ∈ t.players) :
    lookupFlag (initialAppState raw).shareSelectionByPlayerId p.id = some true :=
  lookupFlag_buildAux_self _ _ t p ht hp

/-- Witness for C10 at the serialized `exampleState`. -/
theorem share_selection_not_persisted_witness :
    ({ id := TeamId.A, label := "Sharks",
        players := [{ id := "A-1", name := "Ann", stats := blankStatLine }] } : Team) ∈
        (initialAppState (some (encodePersistedState exampleState))).teams ∧
      lookupFlag
          (initialAppState (some (encodePersistedState exampleState))).shareSelectionByPlayerId
          "A-1" =
        some true :=
  ⟨by decide,
    share_selection_not_persisted (some (encodePersistedState exampleState))
      { id := TeamId.A, label := "Sharks",
        players := [{ id := "A-1", name := "Ann", stats := blankStatLine }] }
      { id := "A-1", name := "Ann", stats := blankStatLine } (by decide) (by decide)⟩

/-- C7: operations invoked with invalid preconditions are no-ops — the
state is returned unchanged (and, being total functions, they raise
nothing): `logAction` with no selected player, `undoLastAction` with
empty history, `beginEditNames` with no teams. -/
theorem noop_guards (st : AppState) (a : ActionDefinition) :
    (selectedPlayer st = none → logAction st a = st) ∧
      (st.history = [] → undoLastAction st = st) ∧
      (st.teams = [] → beginEditNames st = st) := by
  refine ⟨fun h => ?_, fun h => ?_, fun h => ?_⟩
  · unfold logAction
    rw [h]
    cases selectedTeam st <;> rfl
  · unfold undoLastAction
    rw [h]
    rfl
  · unfold beginEditNames
    rw [if_pos h]

/-- A concrete action definition (the AST entry of `scoringActions`). -/
def astAction : ActionDefinition :=
  { id := "ast", label := "AST", short := "AST", tone := .event,
    delta := { ast := some 1 } }

/-- Witness for C7 at the fresh (defaulted) startup state. -/
theorem noop_guards_witness :
    selectedPlayer (initialAppState none) = none ∧
      (initialAppState none).history = [] ∧
      (initialAppState none).teams = [] ∧
      logAction (initialAppState none) astAction = initialAppState none ∧
      undoLastAction (initialAppState none) = initialAppState none ∧
      beginEditNames (initialAppState none) = initialAppState none :=
  ⟨rfl, rfl, rfl, (noop_guards (initialAppState none) astAction).1 rfl,
    (noop_guards (initialAppState none) astAction).2.1 rfl,
    (noop_guards (initialAppState none) astAction).2.2 rfl⟩

/-- C9: "Reset" returns to Setup semantics (phase Setup, hence the Setup
view shows), clears history, last-action and share status, closes the
share sheet, and preserves the setup staging data; the teams array itself
is left in place (cleared only implicitly, by the phase change). -/
theorem backToSetup_resets (st : AppState) :
    (backToSetup st).phase = Phase.setup ∧
      showSetup (backToSetup st) = true ∧
      (backToSetup st).history = [] ∧
      (backToSetup st).lastAction = "" ∧
      (backToSetup st).shareStatus = "" ∧
      (backToSetup st).isShareOptionsOpen = false ∧
      (backToSetup st).setup = st.setup ∧
      (backToSetup st).teams = st.teams ∧
      (backToSetup st).selectedTeamId = st.selectedTeamId ∧
      (backToSetup st).selectedPlayerId = st.selectedPlayerId := by
  refine ⟨rfl, ?_, rfl, rfl, rfl, rfl, rfl, rfl, rfl, rfl⟩
  simp [showSetup, backToSetup, closeShareOptions]

theorem renamePlayers_length (ts : SetupTeam) (ps : List Player) :
    ∀ i, (renamePlayers ts i ps).length = ps.length := by
  induction ps with
  | nil => intro i; rfl
  | cons p ps ih => intro i; simp [renamePlayers, ih]

theorem renamePlayers_get (ts : SetupTeam) (ps : List Player) :
    ∀ i j, (renamePlayers ts i ps)[j]? =
      (ps[j]?).map fun p : Player => { p with name := renamedName ts (i + j) } := by
  induction ps with
  | nil => intro i j; simp [renamePlayers]
  | cons p ps ih =>
      intro i j
      cases j with
      | zero => simp [renamePlayers]
      | succ j =>
          simp only [renamePlayers, List.getElem?_cons_succ]
          rw [ih (i + 1) j, show i + (j + 1) = i + 1 + j by omega]

/-- C6: `saveEditedNames` only renames — history and selection are
untouched, the team list keeps its length, and for every team the result
keeps its id, applies the trimmed staged label (falling back to the
previous label), and for every player index keeps the player's id and
stats while applying the trimmed staged name (falling back to
`P(index+1)`). -/
theorem saveEditedNames_renames_only (st : AppState) :
    (saveEditedNames st).history = st.history ∧
      (saveEditedNames st).selectedTeamId = st.selectedTeamId ∧
      (saveEditedNames st).selectedPlayerId = st.selectedPlayerId ∧
      (saveEditedNames st).teams.length = st.teams.length ∧
      ∀ (i : Nat) (t : Team), st.teams[i]? = some t →
        ∃ t' : Team, (saveEditedNames st).teams[i]? = some t' ∧
          t'.id = t.id ∧
          t'.label =
            (if (st.setup.get t.id).label.trim = "" then t.label
              else (st.setup.get t.id).label.trim) ∧
          t'.players.length = t.players.length ∧
          ∀ (j : Nat) (p : Player), t.players[j]? = some p →
            t'.players[j]? =
              some
                { id := p.id, name := renamedName (st.setup.get t.id) j,
                  stats := p.stats } := by
  refine ⟨rfl, rfl, rfl, by simp [saveEditedNames], fun i t hi => ?_⟩
  refine ⟨{ t with
      label := (if (st.setup.get t.id).label.trim = "" then t.label
        else (st.setup.get t.id).label.trim)
      players := renamePlayers (st.setup.get t.id) 0 t.players }, ?_, rfl, rfl, ?_, ?_⟩
  · simp only [saveEditedNames, List.getElem?_map, hi]
    rfl
  · exact renamePlayers_length _ _ 0
  · intro j p hj
    rw [renamePlayers_get _ _ 0 j, hj]
    simp

/-- A staged roster used to witness C6: team A has a staged label and one
staged name; the second slot is blank and falls back to `P2`. -/
def editState : AppState :=
  { phase := .editNames
    playerCount := 5
    setupScoringMode := .twosAndThrees
    gameScoringMode := .twosAndThrees
    setup :=
      { A := { label := "  Tigers ", names := ["  Zoe ", "", "", "", ""] }
        B := createSetupTeam "Team B" }
    teams :=
      [{ id := .A, label := "Sharks",
          players :=
            [{ id := "A-1", name := "Ann",
                stats := { blankStatLine with ast := 3 } },
              { id := "A-2", name := "Ben", stats := blankStatLine }] }]
    selectedTeamId := .A
    selectedPlayerId := "A-1"
    history := []
    lastAction := ""
    shareStatus := ""
    shareSelectionByPlayerId := []
    isShareOptionsOpen := false
    isPreparingShareImage := false
    hasSharePrepareError := false
    sharePrepareJobId := 0 }

/-- Witness for C6: renaming applies "Tigers"/"Zoe"/"P2" while both
players keep their stats. -/
theorem saveEditedNames_renames_only_witness :
    editState.teams[0]? =
        some
          { id := .A, label := "Sharks",
            players :=
              [{ id := "A-1", name := "Ann",
                  stats := { blankStatLine with ast := 3 } },
                { id := "A-2", name := "Ben", stats := blankStatLine }] } ∧
      (∃ t' : Team, (saveEditedNames editState).teams[0]? = some t' ∧
        t'.id = TeamId.A ∧
        t'.label =
          (if (editState.setup.get TeamId.A).label.trim = "" then "Sharks"
            else (editState.setup.get TeamId.A).label.trim) ∧
        t'.players.length = 2 ∧
        ∀ (j : Nat) (p : Player),
          ([{ id := "A-1", name := "Ann",
              stats := { blankStatLine with ast := 3 } },
            { id := "A-2", name := "Ben", stats := blankStatLine }] : List Player)[j]? =
              some p →
            t'.players[j]? =
              some
                { id := p.id, name := renamedName (editState.setup.get TeamId.A) j,
                  stats := p.stats }) :=
  ⟨rfl,
    (saveEditedNames_renames_only editState).2.2.2.2 0
      { id := .A, label := "Sharks",
        players :=
          [{ id := "A-1", name := "Ann", stats := { blankStatLine with ast := 3 } },
            { id := "A-2", name := "Ben", stats := blankStatLine }] }
      rfl⟩

/-- JSON string escaping of one character as performed by
`JSON.stringify` (quote, backslash and the common control characters
suffice for a faithful character-level model). -/
def escapeJsonChar (c : Char) : List Char :=
  if c = Char.ofNat 34 then [Char.ofNat 92, Char.ofNat 34]
  else if c = Char.ofNat 92 then [Char.ofNat 92, Char.ofNat 92]
  else if c = Char.ofNat 10 then [Char.ofNat 92, 'n']
  else if c = Char.ofNat 13 then [Char.ofNat 92, 'r']
  else if c = Char.ofNat 9 then [Char.ofNat 92, 't']
  else [c]

def escapeChars (cs : List Char) : List Char :=
  (cs.map escapeJsonChar).flatten

/-- A JSON string literal: `"` + escaped characters + `"`. -/
def quoteChars (s : String) : List Char :=
  Char.ofNat 34 :: (escapeChars s.data ++ [Char.ofNat 34])

/-- Decimal digits of a positive number, most significant first (the
first argument is structural fuel). -/
def natCharsAux : Nat → Nat → List Char
  | 0, _ => []
  | _ + 1, 0 => []
  | fuel + 1, n + 1 =>
      natCharsAux fuel ((n + 1) / 10) ++ [Char.ofNat ((n + 1) % 10 + 48)]

/-- The decimal rendering of a natural number (`JSON.stringify` output
for whole numbers). -/
def natChars (n : Nat) : List Char :=
  if n = 0 then ['0'] else natCharsAux n n

/-- Reads decimal digits back (big-endian fold): a left inverse of
`natChars`. -/
def decodeNatChars (cs : List Char) : Nat :=
  cs.foldl (fun acc c => acc * 10 + (c.toNat - 48)) 0

/-- The decimal rendering of an integer. -/
def intChars (n : Int) : List Char :=
  if n < 0 then '-' :: natChars n.natAbs else natChars n.toNat

theorem digit_char_toNat (d : Nat) (h : d < 10) :
    (Char.ofNat (d + 48)).toNat = d + 48 := by
  interval_cases d <;> decide

theorem decodeNatChars_append_digit (cs : List Char) (d : Nat) (h : d < 10) :
    decodeNatChars (cs ++ [Char.ofNat (d + 48)]) = decodeNatChars cs * 10 + d := by
  unfold decodeNatChars
  rw [List.foldl_append]
  simp [digit_char_toNat d h]

theorem natCharsAux_zero (fuel : Nat) : natCharsAux fuel 0 = [] := by
  cases fuel <;> rfl

theorem decode_natCharsAux (fuel : Nat) :
    ∀ n, 0 < n → n ≤ fuel → decodeNatChars (natCharsAux fuel n) = n := by
  induction fuel with
  | zero => intro n hn hf; omega
  | succ fuel ih =>
      intro n hn hf
      obtain ⟨m, rfl⟩ : ∃ m, n = m + 1 := ⟨n - 1, by omega⟩
      rw [natCharsAux, decodeNatChars_append_digit _ _ (by omega)]
      by_cases hq : (m + 1) / 10 = 0
      · rw [hq, natCharsAux_zero]
        have : decodeNatChars [] = 0 := rfl
        rw [this]
        omega
      · rw [ih ((m + 1) / 10) (by omega) (by omega)]
        omega

theorem decode_natChars (n : Nat) : decodeNatChars (natChars n) = n := by
  unfold natChars
  by_cases h0 : n = 0
  · subst h0; rfl
  · rw [if_neg h0]
    exact decode_natCharsAux n n (by omega) le_rfl

theorem natChars_inj {a b : Nat} (h : natChars a = natChars b) : a = b := by
  rw [← decode_natChars a, h, decode_natChars]

theorem intChars_inj_nonneg {a b : Int} (ha : 0 ≤ a) (hb : 0 ≤ b)
    (h : intChars a = intChars b) : a = b := by
  unfold intChars at h
  rw [if_neg (by omega), if_neg (by omega)] at h
  have := natChars_inj h
  omega

/-- The characters a comma-join contributes for the elements after the
first. -/
def prependCommas : List (List Char) → List Char
  | [] => []
  | x :: xs => ',' :: (x ++ prependCommas xs)

/-- `Array.prototype.join(',')` over serialized elements, as produced by
`JSON.stringify` for arrays. -/
def joinComma : List (List Char) → List Char
  | [] => []
  | x :: xs => x ++ prependCommas xs

theorem prependCommas_inj_at :
    ∀ (pre : List (List Char)) (x y : List Char) (post : List (List Char)),
      prependCommas (pre ++ x :: post) = prependCommas (pre ++ y :: post) → x = y := by
  intro pre
  induction pre with
  | nil =>
      intro x y post h
      simp only [List.nil_append, prependCommas] at h
      injection h with _ h
      exact List.append_cancel_right h
  | cons z pre ih =>
      intro x y post h
      simp only [List.cons_append, prependCommas] at h
      injection h with _ h
      exact ih x y post (List.append_cancel_left h)

theorem joinComma_inj_at (pre : List (List Char)) (x y : List Char)
    (post : List (List Char))
    (h : joinComma (pre ++ x :: post) = joinComma (pre ++ y :: post)) : x = y := by
  cases pre with
  | nil =>
      simp only [List.nil_append, joinComma] at h
      exact List.append_cancel_right h
  | cons z pre =>
      simp only [List.cons_append, joinComma] at h
      exact prependCommas_inj_at pre x y post (List.append_cancel_left h)

/-- Shorthand for a literal serialization segment. -/
def lit (s : String) : List Char := s.data

/-- The `JSON.stringify` image of a stat-line record (field order is the
`StatLine` literal order). -/
def serializeStatLine (s : StatLine) : List Char :=
  lit "\x7b\"lowPA\":" ++ intChars s.lowPA ++ lit ",\"lowPM\":" ++ intChars s.lowPM ++
    lit ",\"highPA\":" ++ intChars s.highPA ++ lit ",\"highPM\":" ++ intChars s.highPM ++
    lit ",\"ast\":" ++ intChars s.ast ++ lit ",\"stl\":" ++ intChars s.stl ++
    lit ",\"blk\":" ++ intChars s.blk ++ lit ",\"reb\":" ++ intChars s.reb ++
    lit ",\"tov\":" ++ intChars s.tov ++ lit ",\"tovf\":" ++ intChars s.tovf ++ lit "\x7d"

/-- The `JSON.stringify` image of one projected player
(`{ id, name, stats }` in `shareCaptureSignature`). -/
def serializePlayer (p : Player) : List Char :=
  lit "\x7b\"id\":" ++ quoteChars p.id ++ lit ",\"name\":" ++ quoteChars p.name ++
    lit ",\"stats\":" ++ serializeStatLine p.stats ++ lit "\x7d"

/-- The `JSON.stringify` image of one projected team
(`{ id, label, players }` in `shareCaptureSignature`). -/
def serializeTeam (t : Team) : List Char :=
  lit "\x7b\"id\":" ++ quoteChars (teamIdStr t.id) ++ lit ",\"label\":" ++
    quoteChars t.label ++ lit ",\"players\":[" ++
    joinComma (t.players.map serializePlayer) ++ lit "]\x7d"

def sigChars (teams : List Team) (scoringMode : ScoringMode) : List Char :=
  lit "\x7b\"scoringMode\":" ++ quoteChars (scoringModeStr scoringMode) ++
    lit ",\"teams\":[" ++ joinComma (teams.map serializeTeam) ++ lit "]\x7d"

/-- `shareCaptureSignature` from App.tsx: the `JSON.stringify` of
`{ scoringMode, teams: teams.map(({id,label,players:…{id,name,stats}})) }`,
modelled character by character. -/
def shareCaptureSignature (teams : List Team) (scoringMode : ScoringMode) : String :=
  ⟨sigChars teams scoringMode⟩

/-- `shareTeams` in App.tsx: teams with only the included players
(`selection[player.id] !== false`), teams left with no included players
dropped. -/
def shareTeams (teams : List Team) (selection : List (String × Bool)) : List Team :=
  (teams.map fun team =>
      { team with
        players :=
          team.players.filter fun player => lookupFlag selection player.id ≠ some false }).filter
    fun team => !team.players.isEmpty

/-- Incrementing one counter of a stat line by 1. -/
def bumpStat (s : StatLine) (k : StatKey) : StatLine :=
  match k with
  | .lowPA => { s with lowPA := s.lowPA + 1 }
  | .lowPM => { s with lowPM := s.lowPM + 1 }
  | .highPA => { s with highPA := s.highPA + 1 }
  | .highPM => { s with highPM := s.highPM + 1 }
  | .ast => { s with ast := s.ast + 1 }
  | .stl => { s with stl := s.stl + 1 }
  | .blk => { s with blk := s.blk + 1 }
  | .reb => { s with reb := s.reb + 1 }
  | .tov => { s with tov := s.tov + 1 }
  | .tovf => { s with tovf := s.tovf + 1 }

theorem intChars_succ_head_ne (a : Int) (ha : 0 ≤ a) (R : List Char)
    (h : intChars a ++ R = intChars (a + 1) ++ R) : False := by
  have := intChars_inj_nonneg ha (by omega) (List.append_cancel_right h)
  omega

/-- C8: the share signature depends only on the scoring mode and the
shareable roster (identical inputs give identical signatures), and
changing any included player's stat value by 1 — at any position in the
shareable roster — produces a different signature. -/
theorem share_signature_pure_and_sensitive :
    (∀ (teams1 teams2 : List Team) (sel1 sel2 : List (String × Bool))
        (mode1 mode2 : ScoringMode),
      shareTeams teams1 sel1 = shareTeams teams2 sel2 → mode1 = mode2 →
        shareCaptureSignature (shareTeams teams1 sel1) mode1 =
          shareCaptureSignature (shareTeams teams2 sel2) mode2) ∧
    (∀ (mode : ScoringMode) (preT postT : List Team) (tid : TeamId) (tlabel : String)
        (preP postP : List Player) (p : Player) (k : StatKey),
      0 ≤ p.stats.get k →
        shareCaptureSignature
            (preT ++
              ({ id := tid, label := tlabel, players := preP ++ p :: postP } : Team) ::
                postT)
            mode ≠
          shareCaptureSignature
            (preT ++
              ({ id := tid, label := tlabel,
                  players :=
                    preP ++ ({ p with stats := bumpStat p.stats k } : Player) :: postP } :
                  Team) ::
                postT)
            mode) := by
  constructor
  · intro teams1 teams2 sel1 sel2 mode1 mode2 hts hm
    rw [hts, hm]
  · intro mode preT postT tid tlabel preP postP p k hk h
    obtain ⟨pid, pname, pstats⟩ := p
    have h2 : sigChars
        (preT ++
          ({ id := tid, label := tlabel, players := preP ++ ⟨pid, pname, pstats⟩ :: postP } : Team) ::
            postT) mode =
        sigChars
          (preT ++
            ({ id := tid, label := tlabel,
                players := preP ++ ⟨pid, pname, bumpStat pstats k⟩ :: postP } : Team) ::
              postT) mode := congrArg String.data h
    clear h
    simp only [sigChars, List.map_append, List.map_cons, List.append_assoc] at h2
    replace h2 := List.append_cancel_left h2
    replace h2 := List.append_cancel_left h2
    replace h2 := List.append_cancel_left h2
    replace h2 := List.append_cancel_right h2
    replace h2 := joinComma_inj_at (preT.map serializeTeam) _ _ (postT.map serializeTeam) h2
    simp only [serializeTeam, List.map_append, List.map_cons, List.append_assoc] at h2
    replace h2 := List.append_cancel_left h2
    replace h2 := List.append_cancel_left h2
    replace h2 := List.append_cancel_left h2
    replace h2 := List.append_cancel_left h2
    replace h2 := List.append_cancel_left h2
    replace h2 := List.append_cancel_right h2
    replace h2 := joinComma_inj_at (preP.map serializePlayer) _ _ (postP.map serializePlayer) h2
    simp only [serializePlayer, List.append_assoc] at h2
    replace h2 := List.append_cancel_left h2
    replace h2 := List.append_cancel_left h2
    replace h2 := List.append_cancel_left h2
    replace h2 := List.append_cancel_left h2
    replace h2 := List.append_cancel_left h2
    obtain ⟨s1, s2, s3, s4, s5, s6, s7, s8, s9, s10⟩ := pstats
    simp only [StatLine.get] at hk
    cases k
    case lowPA =>
        simp only [bumpStat, serializeStatLine, List.append_assoc] at h2
        simp only [StatLine.get] at hk
        replace h2 := List.append_cancel_left h2
        exact intChars_succ_head_ne s1 hk _ h2
    case lowPM =>
        simp only [bumpStat, serializeStatLine, List.append_assoc] at h2
        simp only [StatLine.get] at hk
        replace h2 := List.append_cancel_left h2
        replace h2 := List.append_cancel_left h2
        replace h2 := List.append_cancel_left h2
        exact intChars_succ_head_ne s2 hk _ h2
    case highPA =>
        simp only [bumpStat, serializeStatLine, List.append_assoc] at h2
        simp only [StatLine.get] at hk
        replace h2 := List.append_cancel_left h2
        replace h2 := List.append_cancel_left h2
        replace h2 := List.append_cancel_left h2
        replace h2 := List.append_cancel_left h2
        replace h2 := List.append_cancel_left h2
        exact intChars_succ_head_ne s3 hk _ h2
    case highPM =>
        simp only [bumpStat, serializeStatLine, List.append_assoc] at h2
        simp only [StatLine.get] at hk
        replace h2 := List.append_cancel_left h2
        replace h2 := List.append_cancel_left h2
        replace h2 := List.append_cancel_left h2
        replace h2 := List.append_cancel_left h2
        replace h2 := List.append_cancel_left h2
        replace h2 := List.append_cancel_left h2
        replace h2 := List.append_cancel_left h2
        exact intChars_succ_head_ne s4 hk _ h2
    case ast =>
        simp only [bumpStat, serializeStatLine, List.append_assoc] at h2
        simp only [StatLine.get] at hk
        replace h2 := List.append_cancel_left h2
        replace h2 := List.append_cancel_left h2
        replace h2 := List.append_cancel_left h2
        replace h2 := List.append_cancel_left h2
        replace h2 := List.append_cancel_left h2
        replace h2 := List.append_cancel_left h2
        replace h2 := List.append_cancel_left h2
        replace h2 := List.append_cancel_left h2
        replace h2 := List.append_cancel_left h2
        exact intChars_succ_head_ne s5 hk _ h2
    case stl =>
        simp only [bumpStat, serializeStatLine, List.append_assoc] at h2
        simp only [StatLine.get] at hk
        replace h2 := List.append_cancel_left h2
        replace h2 := List.append_cancel_left h2
        replace h2 := List.append_cancel_left h2
        replace h2 := List.append_cancel_left h2
        replace h2 := List.append_cancel_left h2
        replace h2 := List.append_cancel_left h2
        replace h2 := List.append_cancel_left h2
        replace h2 := List.append_cancel_left h2
        replace h2 := List.append_cancel_left h2
        replace h2 := List.append_cancel_left h2
        replace h2 := List.append_cancel_left h2
        exact intChars_succ_head_ne s6 hk _ h2
    case blk =>
        simp only [bumpStat, serializeStatLine, List.append_assoc] at h2
        simp only [StatLine.get] at hk
        replace h2 := List.append_cancel_left h2
        replace h2 := List.append_cancel_left h2
        replace h2 := List.append_cancel_left h2
        replace h2 := List.append_cancel_left h2
        replace h2 := List.append_cancel_left h2
        replace h2 := List.append_cancel_left h2
        replace h2 := List.append_cancel_left h2
        replace h2 := List.append_cancel_left h2
        replace h2 := List.append_cancel_left h2
        replace h2 := List.append_cancel_left h2
        replace h2 := List.append_cancel_left h2
        replace h2 := List.append_cancel_left h2
        replace h2 := List.append_cancel_left h2
        exact intChars_succ_head_ne s7 hk _ h2
    case reb =>
        simp only [bumpStat, serializeStatLine, List.append_assoc] at h2
        simp only [StatLine.get] at hk
        replace h2 := List.append_cancel_left h2
        replace h2 := List.append_cancel_left h2
        replace h2 := List.append_cancel_left h2
        replace h2 := List.append_cancel_left h2
        replace h2 := List.append_cancel_left h2
        replace h2 := List.append_cancel_left h2
        replace h2 := List.append_cancel_left h2
        replace h2 := List.append_cancel_left h2
        replace h2 := List.append_cancel_left h2
        replace h2 := List.append_cancel_left h2
        replace h2 := List.append_cancel_left h2
        replace h2 := List.append_cancel_left h2
        replace h2 := List.append_cancel_left h2
        replace h2 := List.append_cancel_left h2
        replace h2 := List.append_cancel_left h2
        exact intChars_succ_head_ne s8 hk _ h2
    case tov =>
        simp only [bumpStat, serializeStatLine, List.append_assoc] at h2
        simp only [StatLine.get] at hk
        replace h2 := List.append_cancel_left h2
        replace h2 := List.append_cancel_left h2
        replace h2 := List.append_cancel_left h2
        replace h2 := List.append_cancel_left h2
        replace h2 := List.append_cancel_left h2
        replace h2 := List.append_cancel_left h2
        replace h2 := List.append_cancel_left h2
        replace h2 := List.append_cancel_left h2
        replace h2 := List.append_cancel_left h2
        replace h2 := List.append_cancel_left h2
        replace h2 := List.append_cancel_left h2
        replace h2 := List.append_cancel_left h2
        replace h2 := List.append_cancel_left h2
        replace h2 := List.append_cancel_left h2
        replace h2 := List.append_cancel_left h2
        replace h2 := List.append_cancel_left h2
        replace h2 := List.append_cancel_left h2
        exact intChars_succ_head_ne s9 hk _ h2
    case tovf =>
        simp only [bumpStat, serializeStatLine, List.append_assoc] at h2
        simp only [StatLine.get] at hk
        replace h2 := List.append_cancel_left h2
        replace h2 := List.append_cancel_left h2
        replace h2 := List.append_cancel_left h2
        replace h2 := List.append_cancel_left h2
        replace h2 := List.append_cancel_left h2
        replace h2 := List.append_cancel_left h2
        replace h2 := List.append_cancel_left h2
        replace h2 := List.append_cancel_left h2
        replace h2 := List.append_cancel_left h2
        replace h2 := List.append_cancel_left h2
        replace h2 := List.append_cancel_left h2
        replace h2 := List.append_cancel_left h2
        replace h2 := List.append_cancel_left h2
        replace h2 := List.append_cancel_left h2
        replace h2 := List.append_cancel_left h2
        replace h2 := List.append_cancel_left h2
        replace h2 := List.append_cancel_left h2
        replace h2 := List.append_cancel_left h2
        replace h2 := List.append_cancel_left h2
        exact intChars_succ_head_ne s10 hk _ h2

/-- A concrete player and roster for the C8 witness. -/
def playerW : Player :=
  { id := "A-1", name := "Ann", stats := { blankStatLine with ast := 3 } }

def teamW : Team := { id := .A, label := "Sharks", players := [playerW] }

/-- Witness for C8: two distinct selection records with the same
shareable roster give the same signature, and bumping the included
player's AST by 1 changes the signature. -/
theorem share_signature_pure_and_sensitive_witness :
    shareTeams [teamW] [] = shareTeams [teamW] [("A-1", true)] ∧
      shareCaptureSignature (shareTeams [teamW] []) .twosAndThrees =
        shareCaptureSignature (shareTeams [teamW] [("A-1", true)]) .twosAndThrees ∧
      0 ≤ playerW.stats.get .ast ∧
      shareCaptureSignature [{ id := .A, label := "Sharks", players := [playerW] }]
          .twosAndThrees ≠
        shareCaptureSignature
          [{ id := .A, label := "Sharks",
              players := [{ playerW with stats := bumpStat playerW.stats .ast }] }]
          .twosAndThrees :=
  ⟨by decide,
    share_signature_pure_and_sensitive.1 [teamW] [teamW] [] [("A-1", true)]
      .twosAndThrees .twosAndThrees (by decide) rfl,
    by decide,
    share_signature_pure_and_sensitive.2 .twosAndThrees [] [] .A "Sharks" [] []
      playerW .ast (by decide)⟩
